import Mathlib

/-!
Shallow embedding of the BankManagementTestAPI plan-performance engine
(`src/main.py`, `src/database/requests.py`, `src/database/models.py`).

Conventions of the embedding:
* Python `datetime.date` values that only flow through comparisons, the
  first-of-month check and `incr_month` are modelled by the `CalDate`
  structure with the lexicographic order that calendar dates induce.
  In the credit-status resolver the code subtracts two dates to obtain a
  day count (`(return_date - date.today()).days`); there dates are
  modelled by their day ordinals (`ℤ`), which is exactly the quantity the
  subtraction produces.
* Python `Decimal` amounts are modelled by `ℚ`.  `Decimal.quantize`
  and `round(_, 2)` use `ROUND_HALF_EVEN`, modelled by `rhe` below.
  (Exact rational division stands in for `Decimal` division at 28
  significant digits; all quantities in the claims are exact.)
* SQL `SUM(...)` returns NULL on an empty set; queries built on it are
  modelled as `Option ℚ`, `none` standing for NULL / Python `None`.
* Row-level import errors are modelled structurally: the Python code
  emits `f"Рядок {index+1}: <reason>"` strings; the model keeps the
  1-based row index together with an error-kind value carrying the same
  payloads the f-string interpolates.
-/

/-- Calendar date as carried by Python `datetime.date` where only the
field values and the date order matter. -/
structure CalDate where
  year : ℕ
  month : ℕ
  day : ℕ
deriving DecidableEq, Repr

/-- Date order `a <= b`, lexicographic on (year, month, day), as Python
compares `datetime.date` values. -/
def dateLeb (a b : CalDate) : Bool :=
  if a.year ≠ b.year then a.year < b.year
  else if a.month ≠ b.month then a.month < b.month
  else a.day ≤ b.day

/-- Strict date order `a < b`. -/
def dateLtb (a b : CalDate) : Bool :=
  dateLeb a b && !(a == b)

/-- Embeds `incr_month` of `src/database/requests.py` (lines 124-131):
December rolls to January of `year+1`, otherwise the month is bumped,
and the day is always set to 1. -/
def incr_month (plan_date : CalDate) : CalDate :=
  if plan_date.month = 12 then
    { year := plan_date.year + 1, month := 1, day := 1 }
  else
    { year := plan_date.year, month := plan_date.month + 1, day := 1 }

/-- Round-half-even of a rational to an integer: the rounding mode of
Python `Decimal.quantize` / `round` (`ROUND_HALF_EVEN`). -/
def rhe (q : ℚ) : ℤ :=
  let f : ℤ := q.floor
  let r : ℚ := q - f
  if r < 1/2 then f
  else if 1/2 < r then f + 1
  else if f % 2 = 0 then f else f + 1

/-- Embeds `Decimal(str(x)).quantize(Decimal('0.00'))` (src/main.py line
116): round to exactly 2 fractional digits, half-even. -/
def quantize2 (q : ℚ) : ℚ :=
  (rhe (q * 100) : ℚ) / 100

/-- Embeds `round(x, 2)` on a `Decimal`, returning the value scaled by
100 (an integer: the two fractional digits are the last two decimal
digits of the result). -/
def round2 (x : ℚ) : ℤ :=
  rhe (x * 100)

/-- Renders a scaled-by-100 integer the way `str` renders a `Decimal`
quantized to two fractional digits: `500000 ↦ "5000.00"`. -/
def decimalString (n : ℤ) : String :=
  let a := n.natAbs
  let sign := if n < 0 then "-" else ""
  let frac := a % 100
  let fracStr := if frac < 10 then "0" ++ toString frac else toString frac
  sign ++ toString (a / 100) ++ "." ++ fracStr

/-- Embeds the completion-rate expression of `get_all_performance`
(src/main.py lines 181 and 190):
`str(round(actual*100/(plan.sum or 1), 2))+"%"`.  `Decimal(0)` is falsy
in Python, so `plan.sum or 1` is 1 exactly when the plan sum is 0. -/
def completionRateStr (actual planSum : ℚ) : String :=
  decimalString (round2 (actual * 100 / (if planSum = 0 then 1 else planSum))) ++ "%"

/-- Embeds the overdue computation of `get_user_credits` (src/main.py
lines 49-53) for an outstanding credit, dates given as day ordinals:
`d = (return_date - today).days; 0 if d >= 0 else abs(d)`. -/
def daysOverdue (returnDate today : ℤ) : ℕ :=
  let d := returnDate - today
  if 0 ≤ d then 0 else d.natAbs

/-- Record of the `plans` table (src/database/models.py): `period` is the
first calendar day of a month, `sum` the target amount, `category_id` a
`dictionaries` row id.  The surrogate primary key plays no role in the
engine and is omitted. -/
structure Plan where
  period : CalDate
  sum : ℚ
  category_id : ℕ
deriving DecidableEq, Repr

/-- Record of the `credits` table, restricted to the fields the
performance queries read (`issuance_date`, `body`).  The repayment
fields are modelled separately (see `daysOverdue`). -/
structure Credit where
  user_id : ℕ
  issuance_date : CalDate
  body : ℚ
  percent : ℚ
deriving DecidableEq, Repr

/-- Record of the `payments` table. -/
structure Payment where
  sum : ℚ
  payment_date : CalDate
  credit_id : ℕ
  type_id : ℕ
deriving DecidableEq, Repr

/-- The relational store: `dict` is the `dictionaries` table as
(id, name) pairs, the rest are the `plans`, `credits` and `payments`
tables in row order. -/
structure Store where
  dict : List (ℕ × String)
  plans : List Plan
  credits : List Credit
  payments : List Payment
deriving DecidableEq, Repr

/-- Embeds `get_category_id_by_name` (src/database/requests.py lines
33-35): first dictionary row with the given name, if any. -/
def get_category_id_by_name (s : Store) (category_name : String) : Option ℕ :=
  (s.dict.find? (fun e => decide (e.2 = category_name))).map (fun e => e.1)

/-- Embeds `get_category_name_by_id` (src/database/requests.py lines
62-66). -/
def get_category_name_by_id (s : Store) (category_id : ℕ) : Option String :=
  (s.dict.find? (fun e => decide (e.1 = category_id))).map (fun e => e.2)

/-- Embeds `get_plan_by_date_and_category` (src/database/requests.py
lines 38-41): `.first()` on the rows matching both filters. -/
def get_plan_by_date_and_category (s : Store) (period_date : CalDate)
    (category_id : ℕ) : Option Plan :=
  s.plans.find? (fun p => decide (p.period = period_date ∧ p.category_id = category_id))

/-- Embeds `get_month_plans` (src/database/requests.py lines 56-59):
all plans whose period equals the given first-of-month date. -/
def get_month_plans (s : Store) (today_date : CalDate) : List Plan :=
  s.plans.filter (fun p => decide (p.period = today_date))

/-- Embeds `get_sum_issued_loans` (src/database/requests.py lines
70-74): `SUM(credits.body)` over `period <= issuance_date <=
actual_date`; SQL `SUM` of an empty set is NULL, modelled as `none`. -/
def get_sum_issued_loans (s : Store) (period actual_date : CalDate) : Option ℚ :=
  let rows := s.credits.filter
    (fun c => dateLeb period c.issuance_date && dateLeb c.issuance_date actual_date)
  if rows.isEmpty then none else some (rows.map Credit.body).sum

/-- Embeds `get_payment_sum` (src/database/requests.py lines 91-95):
`SUM(payments.sum)` over `period <= payment_date <= actual_date`, NULL
(`none`) on an empty set. -/
def get_payment_sum (s : Store) (period actual_date : CalDate) : Option ℚ :=
  let rows := s.payments.filter
    (fun p => dateLeb period p.payment_date && dateLeb p.payment_date actual_date)
  if rows.isEmpty then none else some (rows.map Payment.sum).sum

/-- Embeds `get_month_sum_issued_loans` (src/database/requests.py lines
77-81): `SUM(credits.body)` over the half-open month range
`[period, incr_month period)`, NULL (`none`) on an empty set. -/
def get_month_sum_issued_loans (s : Store) (period : CalDate) : Option ℚ :=
  let rows := s.credits.filter
    (fun c => dateLeb period c.issuance_date && dateLtb c.issuance_date (incr_month period))
  if rows.isEmpty then none else some (rows.map Credit.body).sum

/-- Embeds `get_month_sum_payments` (src/database/requests.py lines
84-88). -/
def get_month_sum_payments (s : Store) (plan_date : CalDate) : Option ℚ :=
  let rows := s.payments.filter
    (fun p => dateLeb plan_date p.payment_date && dateLtb p.payment_date (incr_month plan_date))
  if rows.isEmpty then none else some (rows.map Payment.sum).sum

/-- Embeds `get_amount_of_loans` (src/database/requests.py lines
110-114): `COUNT(*)` over the month range. -/
def get_amount_of_loans (s : Store) (plan_date : CalDate) : ℕ :=
  (s.credits.filter
    (fun c => dateLeb plan_date c.issuance_date && dateLtb c.issuance_date (incr_month plan_date))).length

/-- Embeds `get_amount_of_payments` (src/database/requests.py lines
117-121). -/
def get_amount_of_payments (s : Store) (plan_date : CalDate) : ℕ :=
  (s.payments.filter
    (fun p => dateLeb plan_date p.payment_date && dateLtb p.payment_date (incr_month plan_date))).length

/-- Raw `period` cell of an uploaded row after the isinstance dispatch
of src/main.py lines 99-105: a `datetime` or `date` cell yields the
date value, anything else is an invalid date format. -/
inductive RawPeriod
  | invalid
  | val (d : CalDate)
deriving DecidableEq, Repr

/-- Raw `sum` cell: `missing` is a NaN cell (`pd.isna`), `unparsable` a
value `Decimal(str(x))` raises on, `val q` a parsed decimal value. -/
inductive RawSum
  | missing
  | unparsable
  | val (q : ℚ)
deriving DecidableEq, Repr

/-- One uploaded spreadsheet row. -/
structure RawRow where
  period : RawPeriod
  sum : RawSum
  category_name : String
deriving DecidableEq, Repr

/-- Embeds Python `str.strip()` (src/main.py line 121): drop leading
and trailing whitespace. -/
def strip (s : String) : String :=
  ⟨((s.data.dropWhile Char.isWhitespace).reverse.dropWhile Char.isWhitespace).reverse⟩

/-- Kinds of per-row import errors, carrying the payloads the Python
f-strings interpolate (the row index is kept alongside, see
`processRows`). -/
inductive RowErr
  | invalidDateFormat
  | notFirstOfMonth
  | emptySum
  | invalidSum
  | categoryNotFound (category_name : String)
  | planExists (period : CalDate) (category_name : String)
deriving DecidableEq, Repr

/-- Embeds the per-row validation of `upload_plans` (src/main.py lines
98-135), in source order: date format, day-of-month = 1, sum present,
sum parses (then quantized to 2 digits), category resolves (Python
`if not category_id` also treats id 0 as falsy), no pre-existing plan.
A passing row yields the dict appended to `plans_to_insert`. -/
def validateRow (s : Store) (row : RawRow) : Except RowErr Plan :=
  match row.period with
  | .invalid => .error .invalidDateFormat
  | .val period_date =>
    if period_date.day ≠ 1 then .error .notFirstOfMonth
    else match row.sum with
      | .missing => .error .emptySum
      | .unparsable => .error .invalidSum
      | .val q =>
        let amount := quantize2 q
        let category_name := strip row.category_name
        match get_category_id_by_name s category_name with
        | none => .error (.categoryNotFound category_name)
        | some category_id =>
          if category_id = 0 then .error (.categoryNotFound category_name)
          else match get_plan_by_date_and_category s period_date category_id with
            | some _ => .error (.planExists period_date category_name)
            | none => .ok { period := period_date, sum := amount, category_id := category_id }

/-- Embeds the row loop of `upload_plans`: walks the rows accumulating
`errors` (tagged with the 1-based row index the messages render as
`index + 1`) and `plans_to_insert`, both in input order; every row lands
in exactly one of the two lists.  Validation reads only the committed
store `s`, never the rows staged earlier in the same batch. -/
def processRows (s : Store) : ℕ → List RawRow → List (ℕ × RowErr) × List Plan
  | _, [] => ([], [])
  | idx, row :: rest =>
    let next := processRows s (idx + 1) rest
    match validateRow s row with
    | .error e => ((idx, e) :: next.1, next.2)
    | .ok p => (next.1, p :: next.2)

/-- Batch-level import outcome. -/
inductive ImportErr
  | validation (errors : List (ℕ × RowErr))
  | storeFailure
deriving DecidableEq, Repr

/-- Embeds `bulk_insert_plans` (src/database/requests.py lines 44-53):
all rows are added to one session and committed together; `commitOk`
models whether the underlying store accepts the commit — on failure the
session is rolled back (the store is left unchanged) and an HTTP 500 is
raised. -/
def bulk_insert_plans (commitOk : Bool) (s : Store) (ps : List Plan) :
    Except ImportErr Store :=
  if commitOk then .ok { s with plans := s.plans ++ ps }
  else .error .storeFailure

/-- Embeds `upload_plans` (src/main.py lines 96-145) from the point the
rows are decoded: validate every row, reject the whole batch with the
full error list if any row failed, otherwise commit all staged rows
atomically.  The returned pair is (outcome, post-state); the success
payload is `len(plans_to_insert)`. -/
def importPlans (commitOk : Bool) (s : Store) (rows : List RawRow) :
    Except ImportErr ℕ × Store :=
  let step := processRows s 1 rows
  if step.1.isEmpty then
    match bulk_insert_plans commitOk s step.2 with
    | .ok s2 => (.ok step.2.length, s2)
    | .error e => (.error e, s)
  else (.error (.validation step.1), s)

/-- The (period, category) key of a plan. -/
def PlanKey (p : Plan) : CalDate × ℕ := (p.period, p.category_id)

/-- The spec's uniqueness invariant: at most one Plan per
(period, category id) pair. -/
def UniquePlanInv (s : Store) : Prop :=
  s.plans.Pairwise (fun a b => PlanKey a ≠ PlanKey b)

/-- Month-performance failure outcomes of `get_all_performance`
(src/main.py lines 152-194): `notFound` is the 404 for a month with no
plans; `absentActual` models the `TypeError` Python raises when an
aggregate came back `None` and is multiplied (`None * 100`). -/
inductive MonthErr
  | notFound
  | absentActual
deriving DecidableEq, Repr

/-- One entry of the month-performance payload; the actual aggregate is
keyed `sum_issued_loans` or `payment_sum` in the JSON depending on the
category, modelled by one `actual_sum` field next to `category`. -/
structure MonthEntry where
  period : CalDate
  category : String
  plan_sum : ℚ
  actual_sum : ℚ
  plan_completion_rate : String
deriving DecidableEq, Repr

/-- Embeds the per-plan body of the loop in `get_all_performance`
(src/main.py lines 173-193): resolve the category name; for issuance
and collection plans fetch the inclusive-range aggregate (failing like
Python does if it is NULL) and render the safe-divided completion rate;
any other category is silently skipped (`.ok none`). -/
def planEntry (s : Store) (date_obj : CalDate) (p : Plan) :
    Except MonthErr (Option MonthEntry) :=
  let category := get_category_name_by_id s p.category_id
  if category = some "видача" then
    match get_sum_issued_loans s p.period date_obj with
    | none => .error .absentActual
    | some a =>
      .ok (some
        { period := p.period, category := "видача", plan_sum := p.sum,
          actual_sum := a, plan_completion_rate := completionRateStr a p.sum })
  else if category = some "збір" then
    match get_payment_sum s p.period date_obj with
    | none => .error .absentActual
    | some a =>
      .ok (some
        { period := p.period, category := "збір", plan_sum := p.sum,
          actual_sum := a, plan_completion_rate := completionRateStr a p.sum })
  else .ok none

/-- The plan loop of `get_all_performance`: entries are appended in
plan order, recognized categories only, and the loop stops at the first
raising plan exactly as the Python `for` does. -/
def planEntries (s : Store) (date_obj : CalDate) :
    List Plan → Except MonthErr (List MonthEntry)
  | [] => .ok []
  | p :: rest => do
    let e ← planEntry s date_obj p
    let es ← planEntries s date_obj rest
    pure (match e with | some x => x :: es | none => es)

/-- Embeds `get_all_performance` (src/main.py lines 152-194) after date
parsing: normalize to the first of the month, 404 when that month has
no plans, else build the entry list over the month's plans. -/
def monthPerformance (s : Store) (date_obj : CalDate) :
    Except MonthErr (List MonthEntry) :=
  let actual_month : CalDate := { year := date_obj.year, month := date_obj.month, day := 1 }
  let plans := get_month_plans s actual_month
  if plans.isEmpty then .error .notFound
  else planEntries s date_obj plans

/-- Plans of the requested year: `Plan.period` in `[Jan 1, Dec 1]`
(src/database/requests.py lines 99-101). -/
def yearPlanFilter (s : Store) (year : ℕ) : List Plan :=
  s.plans.filter (fun p =>
    dateLeb { year := year, month := 1, day := 1 } p.period &&
    dateLeb p.period { year := year, month := 12, day := 1 })

/-- The `ORDER BY period` of `get_year_plans`, as a stable sort. -/
def sortByPeriod (l : List Plan) : List Plan :=
  l.insertionSort (fun a b => dateLeb a.period b.period = true)

/-- Single step of grouping an ordered plan list by period, merging a
plan into the front group when the periods agree. -/
def insertGrouped (p : Plan) : List (CalDate × List Plan) → List (CalDate × List Plan)
  | [] => [(p.period, [p])]
  | (d, g) :: rest =>
    if p.period = d then (d, p :: g) :: rest
    else (p.period, [p]) :: (d, g) :: rest

/-- Embeds `get_year_plans` (src/database/requests.py lines 98-107):
the year's plans ordered by period and grouped by period into a
defaultdict, i.e. a list of (period, plans) groups in ascending period
order, each group keeping plan order. -/
def get_year_plans (s : Store) (year : ℕ) : List (CalDate × List Plan) :=
  (sortByPeriod (yearPlanFilter s year)).foldr insertGrouped []

/-- Python `plan.category_id == get_category_id_by_name("видача")`:
comparison against `None` (unresolvable name) is `False`. -/
def isIssuanceB (s : Store) (p : Plan) : Bool :=
  match get_category_id_by_name s "видача" with
  | some i => decide (p.category_id = i)
  | none => false

/-- The `or 0` coalescing of the month issuance aggregate used by
`get_year_performance`. -/
def monthIssued0 (s : Store) (d : CalDate) : ℚ :=
  (get_month_sum_issued_loans s d).getD 0

/-- The `or 0` coalescing of the month payment aggregate used by
`get_year_performance`. -/
def monthPaid0 (s : Store) (d : CalDate) : ℚ :=
  (get_month_sum_payments s d).getD 0

/-- Embeds pass 1 of `get_year_performance` (src/main.py lines
213-218): for every plan of every month group, add the group month's
coalesced issuance aggregate to the annual issuance total when the
plan's category id equals the id of "видача", and otherwise add the
month's coalesced payment aggregate to the annual payments total. -/
def annualTotals (s : Store) (groups : List (CalDate × List Plan)) : ℚ × ℚ :=
  groups.foldl (fun acc g =>
    g.2.foldl (fun acc2 p =>
      if isIssuanceB s p then (acc2.1 + monthIssued0 s g.1, acc2.2)
      else (acc2.1, acc2.2 + monthPaid0 s g.1)) acc) (0, 0)

/-- Per-month accumulator of pass 2 of `get_year_performance`
(src/main.py lines 219-232), with the initial zeros of lines 220-225. -/
structure MonthAcc where
  issued_loans_count : ℕ
  payments_count : ℕ
  plan_sum_issued_loans : ℚ
  plan_sum_payments : ℚ
  sum_issued_loans : ℚ
  sum_payments : ℚ
deriving DecidableEq, Repr

/-- One plan's update of the pass-2 accumulator (src/main.py lines
226-232): counts accumulate, the plan target and the coalesced month
aggregate are overwritten (last same-category plan wins). -/
def monthAccStep (s : Store) (d : CalDate) (acc : MonthAcc) (p : Plan) : MonthAcc :=
  if isIssuanceB s p then
    { acc with
      issued_loans_count := acc.issued_loans_count + get_amount_of_loans s d,
      plan_sum_issued_loans := p.sum,
      sum_issued_loans := monthIssued0 s d }
  else
    { acc with
      payments_count := acc.payments_count + get_amount_of_payments s d,
      plan_sum_payments := p.sum,
      sum_payments := monthPaid0 s d }

/-- Pass-2 accumulator of a whole month group. -/
def monthAccOf (s : Store) (d : CalDate) (ps : List Plan) : MonthAcc :=
  ps.foldl (monthAccStep s d)
    { issued_loans_count := 0, payments_count := 0, plan_sum_issued_loans := 0,
      plan_sum_payments := 0, sum_issued_loans := 0, sum_payments := 0 }

/-- Year-performance failure outcomes: the 404 for a year with no
plans, and the `ZeroDivisionError` of the completion-rate divisions. -/
inductive YearErr
  | notFound
  | divByZero
deriving DecidableEq, Repr

/-- One month's entry of the year-performance payload.  The rates are
kept as `round(x, 2)` values scaled by 100 (the string rendering with a
trailing percent sign is transport shaping). -/
structure YearEntry where
  date : CalDate
  issued_loans_count : ℕ
  plan_sum_issued_loans : ℚ
  sum_issued_loans : ℚ
  plan_issued_completion_rate : ℤ
  payments_count : ℕ
  plan_sum_payments : ℚ
  sum_payments : ℚ
  plan_payments_completion_rate : ℤ
  monthly_issued_percent_of_year : ℤ
  monthly_payment_percent_of_year : ℤ
deriving DecidableEq, Repr

/-- Embeds the entry construction of src/main.py lines 233-246.  The
two completion rates divide by the raw accumulated plan targets — a
zero target raises — while only the two percent-of-year fields guard
their denominator with `or 1`. -/
def mkYearEntry (d : CalDate) (acc : MonthAcc) (totIss totPay : ℚ) :
    Except YearErr YearEntry :=
  if acc.plan_sum_issued_loans = 0 then .error .divByZero
  else if acc.plan_sum_payments = 0 then .error .divByZero
  else .ok
    { date := d,
      issued_loans_count := acc.issued_loans_count,
      plan_sum_issued_loans := acc.plan_sum_issued_loans,
      sum_issued_loans := acc.sum_issued_loans,
      plan_issued_completion_rate :=
        round2 (acc.sum_issued_loans * 100 / acc.plan_sum_issued_loans),
      payments_count := acc.payments_count,
      plan_sum_payments := acc.plan_sum_payments,
      sum_payments := acc.sum_payments,
      plan_payments_completion_rate :=
        round2 (acc.sum_payments * 100 / acc.plan_sum_payments),
      monthly_issued_percent_of_year :=
        round2 (acc.sum_issued_loans * 100 / (if totIss = 0 then 1 else totIss)),
      monthly_payment_percent_of_year :=
        round2 (acc.sum_payments * 100 / (if totPay = 0 then 1 else totPay)) }

/-- The month loop of pass 2 of `get_year_performance` (src/main.py
lines 219-247): one entry per month group in ascending order, stopping
at the first raising month like the Python loop does. -/
def yearEntries (s : Store) (totIss totPay : ℚ) :
    List (CalDate × List Plan) → Except YearErr (List YearEntry)
  | [] => .ok []
  | g :: rest => do
    let e ← mkYearEntry g.1 (monthAccOf s g.1 g.2) totIss totPay
    let es ← yearEntries s totIss totPay rest
    pure (e :: es)

/-- Embeds `get_year_performance` top level: 404 when the year has no
plans, else pass 1 followed by pass 2. -/
def yearPerformance (s : Store) (year : ℕ) : Except YearErr (List YearEntry) :=
  let groups := get_year_plans s year
  if groups.isEmpty then .error .notFound
  else
    let tot := annualTotals s groups
    yearEntries s tot.1 tot.2 groups

/-- Modelled from the spec claim under test for C5 (not from the code):
pass-1 totals in which a plan contributes its month's issuance
aggregate only when its category resolves to the name "видача" and its
month's payment aggregate only when its category resolves to "збір",
plans of any other category contributing to neither total. -/
def claimedAnnualTotals (s : Store) (groups : List (CalDate × List Plan)) : ℚ × ℚ :=
  groups.foldl (fun acc g =>
    g.2.foldl (fun acc2 p =>
      let category := get_category_name_by_id s p.category_id
      if category = some "видача" then (acc2.1 + monthIssued0 s g.1, acc2.2)
      else if category = some "збір" then (acc2.1, acc2.2 + monthPaid0 s g.1)
      else acc2) acc) (0, 0)

/-- Dictionary holding the two recognized categories, ids 1 and 2. -/
def twoCatDict : List (ℕ × String) := [(1, "видача"), (2, "збір")]

/-- Store with the two recognized categories and no rows. -/
def emptyStore : Store :=
  { dict := twoCatDict, plans := [], credits := [], payments := [] }

/-- A valid collection-plan import row for March 2024. -/
def marchRow : RawRow :=
  { period := RawPeriod.val ⟨2024, 3, 1⟩, sum := RawSum.val 100, category_name := "збір" }

/-- An import row whose sum has three fractional digits. -/
def decimalRow : RawRow :=
  { period := RawPeriod.val ⟨2024, 3, 1⟩, sum := RawSum.val (12345/1000),
    category_name := "збір" }

/-- A collection plan for January 2024. -/
def collectionPlan : Plan :=
  { period := ⟨2024, 1, 1⟩, sum := 100, category_id := 2 }

/-- Store whose only plan of 2024 is a collection plan (no issuance
plan in its month group). -/
def collectionOnlyStore : Store :=
  { dict := twoCatDict, plans := [collectionPlan], credits := [], payments := [] }

/-- Store with a plan of the unrecognized category "інше" and one
payment dated inside that plan's month. -/
def otherCatStore : Store :=
  { dict := [(1, "видача"), (2, "збір"), (3, "інше")],
    plans := [{ period := ⟨2024, 1, 1⟩, sum := 100, category_id := 3 }],
    credits := [],
    payments := [{ sum := 50, payment_date := ⟨2024, 1, 5⟩, credit_id := 1, type_id := 1 }] }

/-- Store with one issuance plan for March 2024 and one credit inside
that month. -/
def issuanceStore : Store :=
  { dict := twoCatDict,
    plans := [{ period := ⟨2024, 3, 1⟩, sum := 100, category_id := 1 }],
    credits := [{ user_id := 7, issuance_date := ⟨2024, 3, 10⟩, body := 60, percent := 5 }],
    payments := [] }

/-- Sample pass-2 accumulator with nonzero plan targets. -/
def sampleAcc : MonthAcc :=
  { issued_loans_count := 0, payments_count := 0, plan_sum_issued_loans := 100,
    plan_sum_payments := 100, sum_issued_loans := 50, sum_payments := 50 }

/-- The year-performance entry built from `sampleAcc` with both annual
totals 0. -/
def sampleEntry : YearEntry :=
  { date := ⟨2024, 1, 1⟩,
    issued_loans_count := 0,
    plan_sum_issued_loans := 100,
    sum_issued_loans := 50,
    plan_issued_completion_rate := round2 (50 * 100 / 100),
    payments_count := 0,
    plan_sum_payments := 100,
    sum_payments := 50,
    plan_payments_completion_rate := round2 (50 * 100 / 100),
    monthly_issued_percent_of_year := round2 (50 * 100 / (if (0 : ℚ) = 0 then 1 else 0)),
    monthly_payment_percent_of_year := round2 (50 * 100 / (if (0 : ℚ) = 0 then 1 else 0)) }

/-! ## Lemmas about the rounding kernel -/

/-- `Rat.floor` agrees with the ambient `Int.floor`. -/
theorem ratFloor_eq_intFloor (q : ℚ) : q.floor = ⌊q⌋ := rfl

/-- Unfolding of `rhe` through `Int.floor`. -/
theorem rhe_eq (q : ℚ) :
    rhe q = if q - ⌊q⌋ < 1/2 then ⌊q⌋
      else if 1/2 < q - ⌊q⌋ then ⌊q⌋ + 1
      else if ⌊q⌋ % 2 = 0 then ⌊q⌋ else ⌊q⌋ + 1 := rfl

/-- `rhe` is a nearest integer, and at an exact tie it is the even
one. -/
theorem rhe_half_even (y : ℚ) :
    |(rhe y : ℚ) - y| ≤ 1/2 ∧ (|(rhe y : ℚ) - y| = 1/2 → rhe y % 2 = 0) := by
  have hf0 : ((⌊y⌋ : ℤ) : ℚ) ≤ y := Int.floor_le y
  have hf1 : y < (⌊y⌋ : ℚ) + 1 := Int.lt_floor_add_one y
  rw [rhe_eq]
  split_ifs with h1 h2 h3
  · refine ⟨?_, ?_⟩
    · rw [abs_of_nonpos (by linarith)]; linarith
    · intro he; rw [abs_of_nonpos (by linarith)] at he; exfalso; linarith
  · refine ⟨?_, ?_⟩
    · push_cast
      rw [abs_of_nonneg (by linarith)]
      linarith
    · intro he
      push_cast at he
      rw [abs_of_nonneg (by linarith)] at he
      exfalso; linarith
  · have hr : y - (⌊y⌋ : ℚ) = 1/2 := by
      have g1 := not_lt.mp h1
      have g2 := not_lt.mp h2
      linarith
    refine ⟨?_, fun _ => h3⟩
    rw [abs_of_nonpos (by linarith)]; linarith
  · have hr : y - (⌊y⌋ : ℚ) = 1/2 := by
      have g1 := not_lt.mp h1
      have g2 := not_lt.mp h2
      linarith
    have h4 : ⌊y⌋ % 2 = 1 := by omega
    refine ⟨?_, fun _ => by omega⟩
    push_cast
    rw [abs_of_nonneg (by linarith)]
    linarith

/-- Distance form of the half-even property for the 2-digit
quantization. -/
theorem quantize2_dist (x : ℚ) :
    |quantize2 x - x| ≤ 1/200 ∧
    (|quantize2 x - x| = 1/200 → rhe (x * 100) % 2 = 0) := by
  have h := rhe_half_even (x * 100)
  have hq : quantize2 x - x = ((rhe (x * 100) : ℚ) - x * 100) / 100 := by
    unfold quantize2; ring
  constructor
  · rw [hq, abs_div]
    have h100 : |(100 : ℚ)| = 100 := by norm_num
    rw [h100]
    linarith [h.1]
  · intro he
    apply h.2
    rw [hq, abs_div] at he
    have h100 : |(100 : ℚ)| = 100 := by norm_num
    rw [h100] at he
    linarith

/-! ## C9: month arithmetic -/

/-- C9: for every date that is the first day of some month,
`incr_month` returns the first day of the following month: the day of
the result is always 1, the month is incremented by one, except that
December of year y maps to January 1 of year y+1. -/
theorem incr_month_next_month (d : CalDate) (hd : d.day = 1)
    (hlo : 1 ≤ d.month) (hhi : d.month ≤ 12) :
    (incr_month d).day = 1 ∧
    (d.month = 12 → incr_month d = { year := d.year + 1, month := 1, day := 1 }) ∧
    (d.month ≠ 12 → incr_month d = { year := d.year, month := d.month + 1, day := 1 }) := by
  by_cases h : d.month = 12 <;> simp [incr_month, h]

/-- Witness for `incr_month_next_month` at the December roll-over. -/
theorem incr_month_next_month_witness :
    ((⟨2024, 12, 1⟩ : CalDate).day = 1 ∧ 1 ≤ (⟨2024, 12, 1⟩ : CalDate).month ∧
      (⟨2024, 12, 1⟩ : CalDate).month ≤ 12) ∧
    ((incr_month ⟨2024, 12, 1⟩).day = 1 ∧
      ((⟨2024, 12, 1⟩ : CalDate).month = 12 →
        incr_month ⟨2024, 12, 1⟩ = { year := 2024 + 1, month := 1, day := 1 }) ∧
      ((⟨2024, 12, 1⟩ : CalDate).month ≠ 12 →
        incr_month ⟨2024, 12, 1⟩ = { year := 2024, month := 12 + 1, day := 1 })) :=
  ⟨⟨rfl, by decide, by decide⟩,
    incr_month_next_month ⟨2024, 12, 1⟩ rfl (by decide) (by decide)⟩

/-! ## C8: overdue days -/

/-- C8: for an outstanding credit, the reported `days_overdue` equals
max(0, today − return_date) in days: a return date today or in the
future yields 0, one 10 days in the past yields 10, and the value is
never negative (it is a natural number, and the max form is bounded
below by 0). -/
theorem daysOverdue_max (returnDate today : ℤ) :
    (daysOverdue returnDate today : ℤ) = max 0 (today - returnDate) ∧
    daysOverdue returnDate returnDate = 0 ∧
    daysOverdue (today - 10) today = 10 := by
  refine ⟨?_, ?_, ?_⟩ <;> simp only [daysOverdue] <;> split_ifs <;> omega

/-! ## C4: safe division in month performance -/

/-- C4: in month_performance, a plan with target sum 0 has its
completion rate computed with the denominator replaced by 1 — the
effective denominator is never 0, so the division cannot fail — and a
plan with sum = 0 and actual = 50 renders as "5000.00%" (2 decimals). -/
theorem completionRate_zero_target :
    (∀ planSum : ℚ, (if planSum = 0 then (1 : ℚ) else planSum) ≠ 0) ∧
    (∀ actual : ℚ, completionRateStr actual 0 = completionRateStr actual 1) ∧
    completionRateStr 50 0 = "5000.00%" := by
  refine ⟨?_, ?_, ?_⟩
  · intro planSum
    split_ifs with h
    · norm_num
    · exact h
  · intro actual
    simp [completionRateStr]
  · simp only [completionRateStr, round2, rhe_eq]
    norm_num
    rfl

/-! ## C7: half-even rounding of imported sums -/

/-- C7: the sum of an accepted import row is rounded deterministically
to exactly 2 fractional digits under half-even rounding before storage:
every accepted row stores `quantize2` of its parsed sum (a pure
function of the input, so equal inputs store equal values), `quantize2`
moves a value by at most 1/200 and lands on an even hundredths digit at
an exact tie, and a submitted 12.345 is stored as 12.34. -/
theorem import_sum_rounding :
    (∀ s row pd, validateRow s row = .ok pd →
      ∃ q, row.sum = RawSum.val q ∧ pd.sum = quantize2 q) ∧
    (∀ x : ℚ, |quantize2 x - x| ≤ 1/200) ∧
    (∀ x : ℚ, |quantize2 x - x| = 1/200 → rhe (x * 100) % 2 = 0) ∧
    quantize2 (12345/1000) = 1234/100 := by
  refine ⟨?_, fun x => (quantize2_dist x).1, fun x => (quantize2_dist x).2, ?_⟩
  · intro s row pd h
    obtain ⟨p, sum, cat⟩ := row
    cases p with
    | invalid => exact Except.noConfusion h
    | val d =>
      cases sum with
      | missing =>
        simp only [validateRow] at h
        split at h <;> exact Except.noConfusion h
      | unparsable =>
        simp only [validateRow] at h
        split at h <;> exact Except.noConfusion h
      | val q =>
        refine ⟨q, rfl, ?_⟩
        simp only [validateRow] at h
        split at h
        · exact Except.noConfusion h
        · split at h
          · exact Except.noConfusion h
          · split at h
            · exact Except.noConfusion h
            · split at h
              · exact Except.noConfusion h
              · cases h
                rfl
  · have h1234 : rhe (12345/1000 * 100) = 1234 := by
      rw [rhe_eq]; norm_num
    unfold quantize2
    rw [h1234]
    norm_num

/-- Witness for `import_sum_rounding`: a concrete accepted row whose
submitted sum 12.345 is stored as its 2-digit half-even rounding, an
exact tie landing on the even digit. -/
theorem import_sum_rounding_witness :
    validateRow emptyStore decimalRow =
      .ok { period := ⟨2024, 3, 1⟩, sum := quantize2 (12345/1000), category_id := 2 } ∧
    (∃ q, decimalRow.sum = RawSum.val q ∧
      ({ period := ⟨2024, 3, 1⟩, sum := quantize2 (12345/1000),
         category_id := 2 } : Plan).sum = quantize2 q) ∧
    |quantize2 (12345/1000) - 12345/1000| = 1/200 ∧
    rhe ((12345/1000) * 100) % 2 = 0 := by
  have hv : validateRow emptyStore decimalRow =
      .ok { period := ⟨2024, 3, 1⟩, sum := quantize2 (12345/1000), category_id := 2 } := by
    rfl
  have ht : |quantize2 (12345/1000) - 12345/1000| = 1/200 := by
    rw [import_sum_rounding.2.2.2]
    norm_num
  exact ⟨hv, import_sum_rounding.1 _ _ _ hv, ht, import_sum_rounding.2.2.1 _ ht⟩

/-! ## C6: per-row validation order and short-circuiting -/

/-- C6: per-row validation applies its checks in the fixed source
order and short-circuits per row: a row whose period parses but whose
day is not 1 is rejected with the first-of-month error regardless of
its other fields; a first-of-month row with a missing sum is rejected
with the empty-sum error before the category is even looked at; and a
failing row contributes exactly one indexed error, is excluded from the
staged batch, and processing continues with the remaining rows. -/
theorem row_validation_order (s : Store) :
    (∀ d su cat, d.day ≠ 1 →
      validateRow s { period := RawPeriod.val d, sum := su, category_name := cat } =
        .error .notFirstOfMonth) ∧
    (∀ d cat, d.day = 1 →
      validateRow s { period := RawPeriod.val d, sum := RawSum.missing, category_name := cat } =
        .error .emptySum) ∧
    (∀ idx row rest e, validateRow s row = .error e →
      processRows s idx (row :: rest) =
        ((idx, e) :: (processRows s (idx + 1) rest).1, (processRows s (idx + 1) rest).2)) := by
  refine ⟨?_, ?_, ?_⟩
  · intro d su cat hd
    simp only [validateRow]
    rw [if_pos hd]
  · intro d cat hd
    simp only [validateRow]
    rw [if_neg (by simp [hd])]
  · intro idx row rest e h
    simp only [processRows, h]

/-- Witness for `row_validation_order`: the row with period 2024-03-15
is rejected with the first-of-month error and excluded while the next
row is still processed. -/
theorem row_validation_order_witness :
    ((⟨2024, 3, 15⟩ : CalDate).day ≠ 1) ∧
    validateRow emptyStore
      { period := RawPeriod.val ⟨2024, 3, 15⟩, sum := RawSum.val 100,
        category_name := "збір" } = .error .notFirstOfMonth ∧
    ((⟨2024, 3, 1⟩ : CalDate).day = 1) ∧
    validateRow emptyStore
      { period := RawPeriod.val ⟨2024, 3, 1⟩, sum := RawSum.missing,
        category_name := "збір" } = .error .emptySum ∧
    processRows emptyStore 1
      ({ period := RawPeriod.val ⟨2024, 3, 15⟩, sum := RawSum.val 100,
         category_name := "збір" } :: [marchRow]) =
      ((1, RowErr.notFirstOfMonth) :: (processRows emptyStore 2 [marchRow]).1,
        (processRows emptyStore 2 [marchRow]).2) := by
  have hd : (⟨2024, 3, 15⟩ : CalDate).day ≠ 1 := by decide
  have h1 := (row_validation_order emptyStore).1 ⟨2024, 3, 15⟩ (RawSum.val 100) "збір" hd
  exact ⟨hd, h1, rfl,
    (row_validation_order emptyStore).2.1 ⟨2024, 3, 1⟩ "збір" rfl,
    (row_validation_order emptyStore).2.2 1 _ [marchRow] RowErr.notFirstOfMonth h1⟩

/-! ## C1: all-or-nothing import -/

/-- Every input row lands in exactly one of the error list and the
staged batch. -/
theorem processRows_length (s : Store) (idx : ℕ) (rows : List RawRow) :
    (processRows s idx rows).1.length + (processRows s idx rows).2.length
      = rows.length := by
  induction rows generalizing idx with
  | nil => rfl
  | cons r rest ih =>
    simp only [processRows]
    cases h : validateRow s r <;>
      simp only [h, List.length_cons] <;> rw [← ih (idx + 1)] <;> omega

/-- C1: `import_plans` is all-or-nothing.  If any row fails
validation, the committed plan count is unchanged, the result is the
full indexed error list, and the store is untouched; if no row fails
and the store accepts the commit, exactly `rows.length` new plan
records are appended in one step and the success payload reports that
count; if the store rejects the commit, a store-failure error is
surfaced and the store is untouched (rolled back). -/
theorem import_all_or_nothing (commitOk : Bool) (s : Store) (rows : List RawRow) :
    ((importPlans commitOk s rows).2.plans.length =
      if (processRows s 1 rows).1 = [] ∧ commitOk = true
      then s.plans.length + rows.length else s.plans.length) ∧
    ((importPlans commitOk s rows).1 =
      if (processRows s 1 rows).1 = []
      then (if commitOk = true then Except.ok rows.length
            else Except.error ImportErr.storeFailure)
      else Except.error (ImportErr.validation (processRows s 1 rows).1)) ∧
    (((processRows s 1 rows).1 = [] ∧ commitOk = true) ∨
      (importPlans commitOk s rows).2 = s) := by
  have hlen := processRows_length s 1 rows
  by_cases herr : (processRows s 1 rows).1 = []
  · have hplen : (processRows s 1 rows).2.length = rows.length := by
      rw [herr] at hlen
      simpa using hlen
    cases commitOk with
    | false => simp [importPlans, bulk_insert_plans, herr, hplen, List.isEmpty_iff]
    | true => simp [importPlans, bulk_insert_plans, herr, hplen, List.isEmpty_iff]
  · cases commitOk with
    | false => simp [importPlans, herr, List.isEmpty_iff]
    | true => simp [importPlans, herr, List.isEmpty_iff]

/-! ## C2: uniqueness invariant -/

/-- A row accepted by validation has no committed plan under its
(period, category) key. -/
theorem validateRow_ok_not_exists (s : Store) (row : RawRow) (pd : Plan)
    (h : validateRow s row = .ok pd) :
    get_plan_by_date_and_category s pd.period pd.category_id = none := by
  obtain ⟨p, su, cat⟩ := row
  cases p with
  | invalid => exact Except.noConfusion h
  | val d =>
    cases su with
    | missing =>
      simp only [validateRow] at h
      split at h <;> exact Except.noConfusion h
    | unparsable =>
      simp only [validateRow] at h
      split at h <;> exact Except.noConfusion h
    | val q =>
      simp only [validateRow] at h
      split at h
      · exact Except.noConfusion h
      · split at h
        · exact Except.noConfusion h
        · split at h
          · exact Except.noConfusion h
          · split at h
            · exact Except.noConfusion h
            · rename_i hplan
              cases h
              exact hplan

/-- Every staged plan of a batch has no committed plan under its key. -/
theorem processRows_mem_not_exists (s : Store) (idx : ℕ) (rows : List RawRow)
    (pd : Plan) (hm : pd ∈ (processRows s idx rows).2) :
    get_plan_by_date_and_category s pd.period pd.category_id = none := by
  induction rows generalizing idx with
  | nil => simp [processRows] at hm
  | cons r rest ih =>
    simp only [processRows] at hm
    cases hv : validateRow s r with
    | error e =>
      rw [hv] at hm
      exact ih (idx + 1) hm
    | ok p =>
      rw [hv] at hm
      rcases List.mem_cons.mp hm with hpd | hm2
      · subst hpd
        exact validateRow_ok_not_exists s r pd hv
      · exact ih (idx + 1) hm2

/-- C2 (amended): the uniqueness invariant is preserved by
`import_plans` for every batch whose staged rows carry pairwise
distinct (period, category) keys — the code checks each row only
against the committed store, so duplicates inside one batch are not
caught (see the counterexample) — and re-importing the same
(period, category) in a second call is rejected with the
already-exists error, leaving the store unchanged with no duplicate. -/
theorem import_preserves_uniqueness :
    (∀ commitOk s rows, UniquePlanInv s →
      (processRows s 1 rows).2.Pairwise (fun a b => PlanKey a ≠ PlanKey b) →
      UniquePlanInv (importPlans commitOk s rows).2) ∧
    (importPlans true ((importPlans true emptyStore [marchRow]).2) [marchRow]).1 =
      .error (.validation [(1, RowErr.planExists ⟨2024, 3, 1⟩ "збір")]) ∧
    (importPlans true ((importPlans true emptyStore [marchRow]).2) [marchRow]).2 =
      (importPlans true emptyStore [marchRow]).2 ∧
    ((importPlans true emptyStore [marchRow]).2).plans.length = 1 := by
  refine ⟨?_, rfl, rfl, rfl⟩
  intro commitOk s rows hinv hpair
  have hgoal : (importPlans commitOk s rows).2 = s ∨
      (importPlans commitOk s rows).2 =
        { s with plans := s.plans ++ (processRows s 1 rows).2 } := by
    simp only [importPlans]
    by_cases herr : (processRows s 1 rows).1.isEmpty
    · cases commitOk with
      | false => simp [herr, bulk_insert_plans]
      | true => simp [herr, bulk_insert_plans]
    · simp [herr]
  rcases hgoal with h | h
  · rw [h]; exact hinv
  · rw [h]
    unfold UniquePlanInv
    rw [List.pairwise_append]
    refine ⟨hinv, hpair, ?_⟩
    intro a ha b hb hk
    have hnone := processRows_mem_not_exists s 1 rows b hb
    rw [get_plan_by_date_and_category, List.find?_eq_none] at hnone
    have hkey : a.period = b.period ∧ a.category_id = b.category_id :=
      ⟨by simpa [PlanKey] using congrArg Prod.fst hk,
        by simpa [PlanKey] using congrArg Prod.snd hk⟩
    exact absurd (by simp [hkey.1, hkey.2] : decide (a.period = b.period ∧
      a.category_id = b.category_id) = true) (by simpa using hnone a ha)

/-- Witness for the general part of `import_preserves_uniqueness`. -/
theorem import_preserves_uniqueness_witness :
    UniquePlanInv emptyStore ∧
    (processRows emptyStore 1 [marchRow]).2.Pairwise
      (fun a b => PlanKey a ≠ PlanKey b) ∧
    UniquePlanInv (importPlans true emptyStore [marchRow]).2 := by
  have h1 : UniquePlanInv emptyStore := by
    simp [UniquePlanInv, emptyStore]
  have hlist : (processRows emptyStore 1 [marchRow]).2 =
      [{ period := ⟨2024, 3, 1⟩, sum := quantize2 100, category_id := 2 }] := rfl
  have h2 : (processRows emptyStore 1 [marchRow]).2.Pairwise
      (fun a b => PlanKey a ≠ PlanKey b) := by
    rw [hlist]
    exact List.pairwise_singleton _ _
  exact ⟨h1, h2, import_preserves_uniqueness.1 true emptyStore [marchRow] h1 h2⟩

/-- Counterexample to C2 as stated: a batch holding the same valid row
twice passes validation against the committed store and is committed
whole, creating a duplicate (period, category) pair from an invariant-
satisfying store. -/
theorem import_uniqueness_counterexample :
    UniquePlanInv emptyStore ∧
    (importPlans true emptyStore [marchRow, marchRow]).1 = .ok 2 ∧
    ¬ UniquePlanInv (importPlans true emptyStore [marchRow, marchRow]).2 := by
  refine ⟨by simp [UniquePlanInv, emptyStore], rfl, ?_⟩
  have hp : (importPlans true emptyStore [marchRow, marchRow]).2.plans =
      [{ period := ⟨2024, 3, 1⟩, sum := quantize2 100, category_id := 2 },
       { period := ⟨2024, 3, 1⟩, sum := quantize2 100, category_id := 2 }] := rfl
  intro hinv
  unfold UniquePlanInv at hinv
  rw [hp] at hinv
  exact (List.pairwise_cons.mp hinv).1 _ (List.mem_singleton_self _) rfl

/-! ## C10: unguarded actual aggregates in month performance -/

/-- A plan's month-performance entry computation succeeds exactly when
the aggregate its recognized category needs came back non-NULL. -/
theorem planEntry_ok_iff (s : Store) (d : CalDate) (p : Plan) :
    (∃ v, planEntry s d p = .ok v) ↔
      ((get_category_name_by_id s p.category_id = some "видача" →
        get_sum_issued_loans s p.period d ≠ none) ∧
       (get_category_name_by_id s p.category_id = some "збір" →
        get_payment_sum s p.period d ≠ none)) := by
  simp only [planEntry]
  split_ifs with h1 h2
  · cases hs : get_sum_issued_loans s p.period d with
    | none => simp [hs, h1]
    | some a => simp [hs, h1]
  · cases hs : get_payment_sum s p.period d with
    | none => simp [hs, h1, h2]
    | some a => simp [hs, h1, h2]
  · simp [h1, h2]

/-- A month's entry list computation succeeds exactly when every
plan's entry computation does. -/
theorem planEntries_ok_iff (s : Store) (d : CalDate) (ps : List Plan) :
    (∃ l, planEntries s d ps = .ok l) ↔
      ∀ p ∈ ps, ∃ v, planEntry s d p = .ok v := by
  induction ps with
  | nil => simp [planEntries]
  | cons p rest ih =>
    constructor
    · rintro ⟨l, hl⟩
      simp only [planEntries] at hl
      cases he : planEntry s d p with
      | error e =>
        rw [he] at hl
        simp [Bind.bind, Except.bind] at hl
      | ok v =>
        rw [he] at hl
        cases hr : planEntries s d rest with
        | error e2 =>
          rw [hr] at hl
          simp [Bind.bind, Except.bind, Functor.map, Except.map] at hl
        | ok l2 =>
          intro p2 hp2
          rcases List.mem_cons.mp hp2 with h | h
          · exact h ▸ ⟨v, he⟩
          · exact ih.mp ⟨l2, hr⟩ p2 h
    · intro hall
      obtain ⟨v, hv⟩ := hall p (List.mem_cons_self p rest)
      obtain ⟨l, hl⟩ := ih.mpr fun p2 hp2 => hall p2 (List.mem_cons_of_mem p hp2)
      cases v with
      | some x =>
        refine ⟨x :: l, ?_⟩
        simp [planEntries, hv, hl, Bind.bind, Except.bind, Functor.map, Except.map,
          Pure.pure, Except.pure]
      | none =>
        refine ⟨l, ?_⟩
        simp [planEntries, hv, hl, Bind.bind, Except.bind, Functor.map, Except.map,
          Pure.pure, Except.pure]

/-- C10: `month_performance` takes the actual ledger aggregate without
an absent-value guard — the aggregate is NULL exactly when no credit
(respectively payment) falls in the inclusive range — while
`year_performance` coalesces absent aggregates to 0; consequently the
month computation succeeds exactly when the month has plans and every
issuance (respectively collection) plan of the month has at least one
credit (respectively payment) dated within [period, target_date]. -/
theorem month_actuals_unguarded (s : Store) (d : CalDate) :
    (∀ period actual, get_sum_issued_loans s period actual = none ↔
      ∀ c ∈ s.credits, ¬(dateLeb period c.issuance_date = true ∧
        dateLeb c.issuance_date actual = true)) ∧
    (∀ period actual, get_payment_sum s period actual = none ↔
      ∀ p ∈ s.payments, ¬(dateLeb period p.payment_date = true ∧
        dateLeb p.payment_date actual = true)) ∧
    (∀ period, get_month_sum_issued_loans s period = none →
      monthIssued0 s period = 0) ∧
    (∀ period, get_month_sum_payments s period = none →
      monthPaid0 s period = 0) ∧
    ((∃ l, monthPerformance s d = .ok l) ↔
      (get_month_plans s { year := d.year, month := d.month, day := 1 } ≠ [] ∧
        ∀ p ∈ get_month_plans s { year := d.year, month := d.month, day := 1 },
          (get_category_name_by_id s p.category_id = some "видача" →
            get_sum_issued_loans s p.period d ≠ none) ∧
          (get_category_name_by_id s p.category_id = some "збір" →
            get_payment_sum s p.period d ≠ none))) := by
  refine ⟨?_, ?_, ?_, ?_, ?_⟩
  · intro period actual
    simp only [get_sum_issued_loans]
    split_ifs with h
    · simp only [List.isEmpty_iff, List.filter_eq_nil] at h
      simpa using fun c hc => by simpa using h c hc
    · simp only [List.isEmpty_iff] at h
      rcases List.exists_cons_of_ne_nil h with ⟨c, cs, hcs⟩
      have hc := List.mem_of_mem_filter (l := s.credits) (hcs ▸ List.mem_cons_self c cs)
      have hpc := List.of_mem_filter (l := s.credits) (hcs ▸ List.mem_cons_self c cs)
      simp only [Bool.and_eq_true] at hpc
      constructor
      · intro hnone; exact hnone.elim
      · intro hall; exact absurd hpc (by simpa using hall c hc)
  · intro period actual
    simp only [get_payment_sum]
    split_ifs with h
    · simp only [List.isEmpty_iff, List.filter_eq_nil] at h
      simpa using fun c hc => by simpa using h c hc
    · simp only [List.isEmpty_iff] at h
      rcases List.exists_cons_of_ne_nil h with ⟨c, cs, hcs⟩
      have hc := List.mem_of_mem_filter (l := s.payments) (hcs ▸ List.mem_cons_self c cs)
      have hpc := List.of_mem_filter (l := s.payments) (hcs ▸ List.mem_cons_self c cs)
      simp only [Bool.and_eq_true] at hpc
      constructor
      · intro hnone; exact hnone.elim
      · intro hall; exact absurd hpc (by simpa using hall c hc)
  · intro period h
    simp [monthIssued0, h]
  · intro period h
    simp [monthPaid0, h]
  · simp only [monthPerformance]
    split_ifs with h
    · simp only [List.isEmpty_iff] at h
      simp [h]
    · simp only [List.isEmpty_iff] at h
      rw [planEntries_ok_iff]
      constructor
      · intro hall
        exact ⟨h, fun p hp => (planEntry_ok_iff s d p).mp (hall p hp)⟩
      · intro hall
        exact fun p hp => (planEntry_ok_iff s d p).mpr (hall.2 p hp)

/-- Witness for `month_actuals_unguarded`: a concrete store whose only
March 2024 plan is an issuance plan with a credit in range, so
`month_performance` succeeds. -/
theorem month_actuals_unguarded_witness :
    (get_month_plans issuanceStore { year := 2024, month := 3, day := 1 } ≠ [] ∧
      ∀ p ∈ get_month_plans issuanceStore { year := 2024, month := 3, day := 1 },
        (get_category_name_by_id issuanceStore p.category_id = some "видача" →
          get_sum_issued_loans issuanceStore p.period ⟨2024, 3, 20⟩ ≠ none) ∧
        (get_category_name_by_id issuanceStore p.category_id = some "збір" →
          get_payment_sum issuanceStore p.period ⟨2024, 3, 20⟩ ≠ none)) ∧
    (∃ l, monthPerformance issuanceStore ⟨2024, 3, 20⟩ = .ok l) := by
  have hpre : get_month_plans issuanceStore { year := 2024, month := 3, day := 1 } ≠ [] ∧
      ∀ p ∈ get_month_plans issuanceStore { year := 2024, month := 3, day := 1 },
        (get_category_name_by_id issuanceStore p.category_id = some "видача" →
          get_sum_issued_loans issuanceStore p.period ⟨2024, 3, 20⟩ ≠ none) ∧
        (get_category_name_by_id issuanceStore p.category_id = some "збір" →
          get_payment_sum issuanceStore p.period ⟨2024, 3, 20⟩ ≠ none) := by
    have hplans : get_month_plans issuanceStore { year := 2024, month := 3, day := 1 } =
        [{ period := ⟨2024, 3, 1⟩, sum := 100, category_id := 1 }] := rfl
    rw [hplans]
    refine ⟨by simp, ?_⟩
    intro p hp
    rw [List.mem_singleton] at hp
    subst hp
    constructor
    · intro _ hnone
      simp [get_sum_issued_loans, issuanceStore, dateLeb] at hnone
    · intro hcat
      simp [get_category_name_by_id, issuanceStore, twoCatDict] at hcat
  exact ⟨hpre,
    (month_actuals_unguarded issuanceStore ⟨2024, 3, 20⟩).2.2.2.2.mpr hpre⟩

/-! ## C5: pass-1 annual totals -/

/-- Pushing one plan through the grouping step agrees with one flat
pass-1 step keyed by the plan's own period. -/
theorem annualTotals_insertGrouped (s : Store) (p : Plan)
    (G : List (CalDate × List Plan)) (init : ℚ × ℚ) :
    ((insertGrouped p G).foldl (fun acc g => g.2.foldl (fun acc2 q =>
        if isIssuanceB s q then (acc2.1 + monthIssued0 s g.1, acc2.2)
        else (acc2.1, acc2.2 + monthPaid0 s g.1)) acc) init) =
      (G.foldl (fun acc g => g.2.foldl (fun acc2 q =>
        if isIssuanceB s q then (acc2.1 + monthIssued0 s g.1, acc2.2)
        else (acc2.1, acc2.2 + monthPaid0 s g.1)) acc)
        (if isIssuanceB s p then (init.1 + monthIssued0 s p.period, init.2)
         else (init.1, init.2 + monthPaid0 s p.period))) := by
  cases G with
  | nil => simp [insertGrouped]
  | cons g rest =>
    obtain ⟨d, gl⟩ := g
    by_cases h : p.period = d
    · subst h
      simp [insertGrouped]
    · simp [insertGrouped, h]

/-- The nested pass-1 fold over the grouped year plans equals a flat
fold over the ordered plan list. -/
theorem annualTotals_flat (s : Store) (l : List Plan) (init : ℚ × ℚ) :
    ((l.foldr insertGrouped []).foldl (fun acc g => g.2.foldl (fun acc2 q =>
        if isIssuanceB s q then (acc2.1 + monthIssued0 s g.1, acc2.2)
        else (acc2.1, acc2.2 + monthPaid0 s g.1)) acc) init) =
      (l.foldl (fun acc q =>
        if isIssuanceB s q then (acc.1 + monthIssued0 s q.period, acc.2)
        else (acc.1, acc.2 + monthPaid0 s q.period)) init) := by
  induction l generalizing init with
  | nil => rfl
  | cons p rest ih =>
    rw [List.foldr_cons, annualTotals_insertGrouped, ih, List.foldl_cons]

/-- The flat pass-1 fold splits into the issuance-plan and
non-issuance-plan sums. -/
theorem annualTotals_split (s : Store) (l : List Plan) (a b : ℚ) :
    (l.foldl (fun acc q =>
        if isIssuanceB s q then (acc.1 + monthIssued0 s q.period, acc.2)
        else (acc.1, acc.2 + monthPaid0 s q.period)) (a, b)) =
      (a + ((l.filter (fun q => isIssuanceB s q)).map
        (fun q => monthIssued0 s q.period)).sum,
       b + ((l.filter (fun q => !isIssuanceB s q)).map
        (fun q => monthPaid0 s q.period)).sum) := by
  induction l generalizing a b with
  | nil => simp
  | cons p rest ih =>
    cases h : isIssuanceB s p with
    | true => simp [h, ih, add_assoc]
    | false => simp [h, ih, add_assoc]

/-- C5 (amended): in pass 1 of `year_performance` a plan adds its
month's actual issued-credit total to the annual issuance total exactly
when its category id is the id of "видача"; every other plan — the
collection category and any unrecognized category alike — adds its
month's actual payment total to the annual collection total (the claim
that unrecognized categories contribute to neither total fails, see the
counterexample). -/
theorem annual_totals_by_category (s : Store) (year : ℕ) :
    (annualTotals s (get_year_plans s year)).1 =
      (((yearPlanFilter s year).filter (fun q => isIssuanceB s q)).map
        (fun q => monthIssued0 s q.period)).sum ∧
    (annualTotals s (get_year_plans s year)).2 =
      (((yearPlanFilter s year).filter (fun q => !isIssuanceB s q)).map
        (fun q => monthPaid0 s q.period)).sum := by
  have hbase : annualTotals s (get_year_plans s year) =
      (0 + (((sortByPeriod (yearPlanFilter s year)).filter (fun q => isIssuanceB s q)).map
        (fun q => monthIssued0 s q.period)).sum,
       0 + (((sortByPeriod (yearPlanFilter s year)).filter (fun q => !isIssuanceB s q)).map
        (fun q => monthPaid0 s q.period)).sum) := by
    unfold annualTotals get_year_plans
    rw [annualTotals_flat, annualTotals_split]
  have hperm : List.Perm (sortByPeriod (yearPlanFilter s year)) (yearPlanFilter s year) :=
    List.perm_insertionSort _ _
  have hiss : (((sortByPeriod (yearPlanFilter s year)).filter
        (fun q => isIssuanceB s q)).map (fun q => monthIssued0 s q.period)).sum =
      (((yearPlanFilter s year).filter (fun q => isIssuanceB s q)).map
        (fun q => monthIssued0 s q.period)).sum :=
    ((hperm.filter _).map _).sum_eq
  have hpay : (((sortByPeriod (yearPlanFilter s year)).filter
        (fun q => !isIssuanceB s q)).map (fun q => monthPaid0 s q.period)).sum =
      (((yearPlanFilter s year).filter (fun q => !isIssuanceB s q)).map
        (fun q => monthPaid0 s q.period)).sum :=
    ((hperm.filter _).map _).sum_eq
  rw [hbase]
  constructor
  · simpa using hiss
  · simpa using hpay

/-- Counterexample to C5 as stated: a store whose only 2024 plan has
the unrecognized category "інше" still accumulates that month's
payments into the annual collection total, where the claim predicts no
contribution (the spec-following totals are 0). -/
theorem annual_totals_counterexample :
    (annualTotals otherCatStore (get_year_plans otherCatStore 2024)).2 = 50 ∧
    (claimedAnnualTotals otherCatStore (get_year_plans otherCatStore 2024)).2 = 0 ∧
    annualTotals otherCatStore (get_year_plans otherCatStore 2024) ≠
      claimedAnnualTotals otherCatStore (get_year_plans otherCatStore 2024) := by
  have hg : get_year_plans otherCatStore 2024 =
      [(⟨2024, 1, 1⟩, [{ period := ⟨2024, 1, 1⟩, sum := 100, category_id := 3 }])] := rfl
  have h50 : (annualTotals otherCatStore (get_year_plans otherCatStore 2024)).2 = 50 := by
    rw [hg]
    simp [annualTotals, isIssuanceB, get_category_id_by_name, otherCatStore,
      monthPaid0, get_month_sum_payments, dateLeb, dateLtb, incr_month]
  have h0 : (claimedAnnualTotals otherCatStore (get_year_plans otherCatStore 2024)).2 = 0 := by
    rw [hg]
    simp [claimedAnnualTotals, get_category_name_by_id, otherCatStore]
  refine ⟨h50, h0, fun h => ?_⟩
  have hc := congrArg Prod.snd h
  rw [h50, h0] at hc
  exact absurd hc (by norm_num)

/-! ## C3: completion-rate divisions in year performance -/

/-- A successful pass 2 requires every month group's entry to have been
built successfully. -/
theorem yearEntries_ok_mem (s : Store) (tI tP : ℚ)
    (groups : List (CalDate × List Plan)) (r : List YearEntry)
    (h : yearEntries s tI tP groups = .ok r) :
    ∀ g ∈ groups, ∃ e, mkYearEntry g.1 (monthAccOf s g.1 g.2) tI tP = .ok e := by
  induction groups generalizing r with
  | nil => intro g hg; exact absurd hg (List.not_mem_nil g)
  | cons g0 rest ih =>
    intro g hg
    simp only [yearEntries] at h
    cases hmk : mkYearEntry g0.1 (monthAccOf s g0.1 g0.2) tI tP with
    | error e =>
      rw [hmk] at h
      simp [Bind.bind, Except.bind] at h
    | ok e =>
      rw [hmk] at h
      cases hrest : yearEntries s tI tP rest with
      | error e2 =>
        rw [hrest] at h
        simp [Bind.bind, Except.bind, Functor.map, Except.map] at h
      | ok r2 =>
        rcases List.mem_cons.mp hg with h1 | h1
        · subst h1; exact ⟨e, hmk⟩
        · exact ih r2 hrest g h1

/-- A month group with no issuance-category plan leaves the issuance
target at its initial 0. -/
theorem monthAccOf_issued_zero (s : Store) (d : CalDate) (ps : List Plan)
    (h : ∀ p ∈ ps, isIssuanceB s p = false) :
    (monthAccOf s d ps).plan_sum_issued_loans = 0 := by
  have key : ∀ acc : MonthAcc, (ps.foldl (monthAccStep s d) acc).plan_sum_issued_loans =
      acc.plan_sum_issued_loans := by
    induction ps with
    | nil => intro acc; rfl
    | cons p rest ih =>
      intro acc
      have hp := h p (List.mem_cons_self p rest)
      rw [List.foldl_cons]
      rw [ih (fun p2 hp2 => h p2 (List.mem_cons_of_mem p hp2))]
      simp [monthAccStep, hp]
  exact key _

/-- A month group with only issuance-category plans leaves the
collection target at its initial 0. -/
theorem monthAccOf_payments_zero (s : Store) (d : CalDate) (ps : List Plan)
    (h : ∀ p ∈ ps, isIssuanceB s p = true) :
    (monthAccOf s d ps).plan_sum_payments = 0 := by
  have key : ∀ acc : MonthAcc, (ps.foldl (monthAccStep s d) acc).plan_sum_payments =
      acc.plan_sum_payments := by
    induction ps with
    | nil => intro acc; rfl
    | cons p rest ih =>
      intro acc
      have hp := h p (List.mem_cons_self p rest)
      rw [List.foldl_cons]
      rw [ih (fun p2 hp2 => h p2 (List.mem_cons_of_mem p hp2))]
      simp [monthAccStep, hp]
  exact key _

/-- C3 (amended): the two completion rates of a `year_performance`
month entry divide by the raw accumulated plan targets with no
default — the entry is built exactly when both targets are nonzero, and
its rate fields are the plain divisions, while only the two
percent-of-year fields default their denominator to 1 — so a month
group with no issuance-category plan (or only issuance-category plans)
makes the whole endpoint fail with a division-by-zero error rather
than yield 100×actual/1. -/
theorem year_rate_division_unguarded :
    (∀ d acc tI tP, (∃ e, mkYearEntry d acc tI tP = Except.ok e) ↔
      (acc.plan_sum_issued_loans ≠ 0 ∧ acc.plan_sum_payments ≠ 0)) ∧
    (∀ d acc tI tP e, mkYearEntry d acc tI tP = Except.ok e →
      e.plan_issued_completion_rate =
        round2 (acc.sum_issued_loans * 100 / acc.plan_sum_issued_loans) ∧
      e.plan_payments_completion_rate =
        round2 (acc.sum_payments * 100 / acc.plan_sum_payments) ∧
      e.monthly_issued_percent_of_year =
        round2 (acc.sum_issued_loans * 100 / (if tI = 0 then 1 else tI)) ∧
      e.monthly_payment_percent_of_year =
        round2 (acc.sum_payments * 100 / (if tP = 0 then 1 else tP))) ∧
    (∀ s year g, g ∈ get_year_plans s year →
      ((∀ p ∈ g.2, isIssuanceB s p = false) ∨ (∀ p ∈ g.2, isIssuanceB s p = true)) →
      ∀ r, yearPerformance s year ≠ Except.ok r) := by
  refine ⟨?_, ?_, ?_⟩
  · intro d acc tI tP
    constructor
    · rintro ⟨e, he⟩
      simp only [mkYearEntry] at he
      by_cases h1 : acc.plan_sum_issued_loans = 0
      · rw [if_pos h1] at he; exact Except.noConfusion he
      · by_cases h2 : acc.plan_sum_payments = 0
        · rw [if_neg h1, if_pos h2] at he; exact Except.noConfusion he
        · exact ⟨h1, h2⟩
    · rintro ⟨h1, h2⟩
      simp only [mkYearEntry]
      rw [if_neg h1, if_neg h2]
      exact ⟨_, rfl⟩
  · intro d acc tI tP e h
    simp only [mkYearEntry] at h
    by_cases h1 : acc.plan_sum_issued_loans = 0
    · rw [if_pos h1] at h; exact Except.noConfusion h
    · by_cases h2 : acc.plan_sum_payments = 0
      · rw [if_neg h1, if_pos h2] at h; exact Except.noConfusion h
      · rw [if_neg h1, if_neg h2] at h
        cases h
        exact ⟨rfl, rfl, rfl, rfl⟩
  · intro s year g hg hcase r hok
    simp only [yearPerformance] at hok
    split_ifs at hok with hempty
    obtain ⟨e, he⟩ := yearEntries_ok_mem s _ _ _ r hok g hg
    simp only [mkYearEntry] at he
    by_cases h1 : (monthAccOf s g.1 g.2).plan_sum_issued_loans = 0
    · rw [if_pos h1] at he; exact Except.noConfusion he
    · by_cases h2 : (monthAccOf s g.1 g.2).plan_sum_payments = 0
      · rw [if_neg h1, if_pos h2] at he; exact Except.noConfusion he
      · rcases hcase with hc | hc
        · exact h1 (monthAccOf_issued_zero s g.1 g.2 hc)
        · exact h2 (monthAccOf_payments_zero s g.1 g.2 hc)

/-- Witness for `year_rate_division_unguarded`: a concrete entry built
from nonzero targets with its four rate fields, and the concrete
collection-only store on which the endpoint cannot succeed. -/
theorem year_rate_division_unguarded_witness :
    (sampleAcc.plan_sum_issued_loans ≠ 0 ∧ sampleAcc.plan_sum_payments ≠ 0) ∧
    (∃ e, mkYearEntry ⟨2024, 1, 1⟩ sampleAcc 0 0 = Except.ok e) ∧
    mkYearEntry ⟨2024, 1, 1⟩ sampleAcc 0 0 = Except.ok sampleEntry ∧
    (sampleEntry.plan_issued_completion_rate =
        round2 (sampleAcc.sum_issued_loans * 100 / sampleAcc.plan_sum_issued_loans) ∧
      sampleEntry.plan_payments_completion_rate =
        round2 (sampleAcc.sum_payments * 100 / sampleAcc.plan_sum_payments) ∧
      sampleEntry.monthly_issued_percent_of_year =
        round2 (sampleAcc.sum_issued_loans * 100 / (if (0 : ℚ) = 0 then 1 else 0)) ∧
      sampleEntry.monthly_payment_percent_of_year =
        round2 (sampleAcc.sum_payments * 100 / (if (0 : ℚ) = 0 then 1 else 0))) ∧
    ((⟨2024, 1, 1⟩, [collectionPlan]) ∈ get_year_plans collectionOnlyStore 2024) ∧
    (∀ p ∈ [collectionPlan], isIssuanceB collectionOnlyStore p = false) ∧
    (∀ r, yearPerformance collectionOnlyStore 2024 ≠ Except.ok r) := by
  have hne : sampleAcc.plan_sum_issued_loans ≠ 0 ∧ sampleAcc.plan_sum_payments ≠ 0 := by
    constructor <;> norm_num [sampleAcc]
  have hmk : mkYearEntry ⟨2024, 1, 1⟩ sampleAcc 0 0 = Except.ok sampleEntry := rfl
  have hmem : (⟨2024, 1, 1⟩, [collectionPlan]) ∈ get_year_plans collectionOnlyStore 2024 := by
    have : get_year_plans collectionOnlyStore 2024 = [(⟨2024, 1, 1⟩, [collectionPlan])] := rfl
    rw [this]
    exact List.mem_singleton_self _
  have hniss : ∀ p ∈ [collectionPlan], isIssuanceB collectionOnlyStore p = false := by
    intro p hp
    rw [List.mem_singleton] at hp
    subst hp
    rfl
  exact ⟨hne, (year_rate_division_unguarded.1 ⟨2024, 1, 1⟩ sampleAcc 0 0).mpr hne,
    hmk, year_rate_division_unguarded.2.1 ⟨2024, 1, 1⟩ sampleAcc 0 0 sampleEntry hmk,
    hmem, hniss,
    year_rate_division_unguarded.2.2 collectionOnlyStore 2024
      (⟨2024, 1, 1⟩, [collectionPlan]) hmem (Or.inl hniss)⟩

/-- Counterexample to C3 as stated: on a store whose only 2024 plan is
a collection plan, `year_performance` raises division-by-zero instead
of reporting an issuance rate of 100×actual/1. -/
theorem year_division_counterexample :
    yearPerformance collectionOnlyStore 2024 = Except.error YearErr.divByZero := rfl
